import Mathlib

/-!
Shallow embedding of the reconciliation / ledger core of
`plugins.v2/getmissingepisodes/__init__.py` (plugin `GetMissingEpisodes`),
together with theorems settling the specification claims about it.

Conventions of the embedding:
* Python dicts become association lists (first-match lookup);
* Python `datetime.date` values become `PDate` triples compared
  lexicographically, and `datetime.strptime(s, "%Y-%m-%d")` becomes
  `parse_air_date`;
* external collaborator calls (TMDB episode catalog, subscription
  existence check, subscription add) become explicit function parameters,
  and the set of subscription-add calls that succeeded is threaded as an
  explicit list so that "a filing is not undone" is expressible;
* Python truthiness of the values involved is modelled exactly where it
  matters: empty list / empty string / `0` / `None` are falsy.
-/

namespace GetMissingEpisodes

/-- A calendar date as produced by `datetime.date` (year, month, day). -/
structure PDate where
  year : Nat
  month : Nat
  day : Nat
deriving DecidableEq, Repr

/-- `datetime.date` ordering: lexicographic on (year, month, day).
Models `air_date.date() < current_time.date()` in `__filter_episodes`. -/
def dateLt (a b : PDate) : Bool :=
  if a.year ≠ b.year then decide (a.year < b.year)
  else if a.month ≠ b.month then decide (a.month < b.month)
  else decide (a.day < b.day)

/-- "on or before" comparison (used only to state the spec's claimed
filter rule, which speaks of dates on or before the current date). -/
def dateLe (a b : PDate) : Bool :=
  dateLt a b || decide (a = b)

/-- Length of a month, with the Gregorian leap rule used by `datetime`. -/
def daysInMonth (y m : Nat) : Nat :=
  if m = 2 then
    if (y % 4 = 0 && y % 100 ≠ 0) || y % 400 = 0 then 29 else 28
  else if m = 4 ∨ m = 6 ∨ m = 9 ∨ m = 11 then 30 else 31

/-- Python `str.split(sep)` for a one-character separator: `n` separator
occurrences yield `n + 1` (possibly empty) segments. -/
def pySplitOn (sep : Char) : List Char → List (List Char)
  | [] => [[]]
  | c :: cs =>
    if c = sep then [] :: pySplitOn sep cs
    else
      match pySplitOn sep cs with
      | [] => [[c]]
      | g :: gs => (c :: g) :: gs

/-- Numeric value of a non-empty all-digit character run, `none` otherwise. -/
def digitsToNat (l : List Char) : Option Nat :=
  if l ≠ [] ∧ l.all Char.isDigit then
    some (l.foldl (fun a c => a * 10 + (c.toNat - 48)) 0)
  else none

/-- Model of `datetime.datetime.strptime(s, "%Y-%m-%d").date()` returning
`none` where Python raises `ValueError`.  CPython's `_strptime` matches
`%Y` against exactly four digits and `%m` / `%d` against one or two
digits valued 1..12 and 1..31 respectively, requires the whole string to
be consumed, and the `datetime` constructor then rejects year 0 and days
beyond the month length. -/
def parse_air_date (s : String) : Option PDate :=
  match pySplitOn '-' s.data with
  | [ys, ms, ds] =>
    match digitsToNat ys, digitsToNat ms, digitsToNat ds with
    | some y, some m, some d =>
      if ys.length = 4 ∧ ms.length ≤ 2 ∧ ds.length ≤ 2
          ∧ 1 ≤ y ∧ 1 ≤ m ∧ m ≤ 12 ∧ 1 ≤ d ∧ d ≤ daysInMonth y m
      then some ⟨y, m, d⟩ else none
    | _, _, _ => none
  | _ => none

/-- One catalog episode as consumed by `__filter_episodes`
(`episode.episode_number`, `episode.name`, `episode.air_date`).
A missing air date is `none`. -/
structure EpisodeMeta where
  episode_number : Nat
  name : String
  air_date : Option String
deriving DecidableEq, Repr

/-- Admission decision for one episode, from the body of the loop in
`__filter_episodes` (lines 843-881): with `only_aired` set, an episode is
kept only when its air date parses and is strictly earlier than the
current date; without it, every episode is kept. -/
def episode_included (only_aired : Bool) (today : PDate) (e : EpisodeMeta) : Bool :=
  match e.air_date with
  | some s =>
    match parse_air_date s with
    | some d => if only_aired then dateLt d today else true
    | none => !only_aired
  | none => !only_aired

/-- `__filter_episodes` (lines 834-885): the episode numbers surviving the
air-date policy, in catalog order.  The catalog episode list and the
current date are passed explicitly (in the source they come from
`self._tmdbChain.tmdb_episodes` and `datetime.datetime.now`). -/
def filter_episodes (only_aired : Bool) (today : PDate)
    (episodes_info : List EpisodeMeta) : List Nat :=
  (episodes_info.filter (episode_included only_aired today)).map
    (fun e => e.episode_number)

/-- The admission rule as the specification words it: parseable air date
on or before the current date.  Stated only to compare with the code. -/
def episode_included_spec (only_aired : Bool) (today : PDate) (e : EpisodeMeta) : Bool :=
  match e.air_date with
  | some s =>
    match parse_air_date s with
    | some d => if only_aired then dateLe d today else true
    | none => !only_aired
  | none => !only_aired

/-- The three-episode season used by the spec's air-date filter example. -/
def exampleSeasonEpisodes : List EpisodeMeta :=
  [⟨1, "e1", some "2020-01-01"⟩, ⟨2, "e2", some "2999-01-01"⟩, ⟨3, "e3", none⟩]

lemma episode_included_true_iff (today : PDate) (e : EpisodeMeta) :
    episode_included true today e = true ↔
      ∃ s, e.air_date = some s ∧
        ∃ d, parse_air_date s = some d ∧ dateLt d today = true := by
  cases hair : e.air_date with
  | none => simp [episode_included, hair]
  | some s =>
    cases hp : parse_air_date s with
    | none => simp [episode_included, hair, hp]
    | some d =>
      simp only [episode_included, hair, hp, if_true]
      constructor
      · intro h
        exact ⟨s, rfl, d, hp, h⟩
      · rintro ⟨s2, hs2, d2, hd2, hlt⟩
        cases Option.some.inj hs2
        rw [hp] at hd2
        cases Option.some.inj hd2
        exact hlt

lemma episode_included_false (today : PDate) (e : EpisodeMeta) :
    episode_included false today e = true := by
  cases hair : e.air_date with
  | none => simp [episode_included, hair]
  | some s =>
    cases hp : parse_air_date s with
    | none => simp [episode_included, hair, hp]
    | some d => simp [episode_included, hair, hp]

lemma dateLt_iff (a b : PDate) :
    dateLt a b = true ↔
      a.year < b.year ∨ (a.year = b.year ∧
        (a.month < b.month ∨ (a.month = b.month ∧ a.day < b.day))) := by
  unfold dateLt
  split_ifs with hy hm <;> simp only [decide_eq_true_eq] <;> omega

lemma dateLt_asymm {a b : PDate} (h : dateLt a b = true) : dateLt b a = false := by
  rw [dateLt_iff] at h
  rw [Bool.eq_false_iff]
  intro hc
  rw [dateLt_iff] at hc
  omega

lemma mem_filter_episodes_iff (oa : Bool) (today : PDate)
    (episodes : List EpisodeMeta) (n : Nat) :
    n ∈ filter_episodes oa today episodes ↔
      ∃ e ∈ episodes, episode_included oa today e = true ∧ e.episode_number = n := by
  unfold filter_episodes
  simp only [List.mem_map, List.mem_filter]
  constructor
  · rintro ⟨e, ⟨hmem, hinc⟩, hn⟩
    exact ⟨e, hmem, hinc, hn⟩
  · rintro ⟨e, hmem, hinc, hn⟩
    exact ⟨e, ⟨hmem, hinc⟩, hn⟩

/-- C1 (amended): with `airedOnly` set, an episode number is in the
filter's output iff some catalog episode carries it and has a parseable
`YYYY-MM-DD` air date STRICTLY before the current date (the code uses
`air_date.date() < current_time.date()`, so an episode airing on the
current date itself is excluded); episodes with missing or unparseable
air dates are excluded when `airedOnly` is true and included when false;
with `airedOnly` false every episode is included.  On the spec's example
season, any current date after 2020-01-01 and before 2999-01-01 yields
`[1]` when `airedOnly` is true and `[1,2,3]` when false. -/
theorem air_date_filter_correct (today : PDate) (episodes : List EpisodeMeta) (n : Nat) :
    ((n ∈ filter_episodes true today episodes) ↔
      ∃ e ∈ episodes, e.episode_number = n ∧
        ∃ s, e.air_date = some s ∧
          ∃ d, parse_air_date s = some d ∧ dateLt d today = true) ∧
    ((n ∈ filter_episodes false today episodes) ↔
      ∃ e ∈ episodes, e.episode_number = n) ∧
    (dateLt ⟨2020, 1, 1⟩ today = true → dateLt today ⟨2999, 1, 1⟩ = true →
      filter_episodes true today exampleSeasonEpisodes = [1] ∧
      filter_episodes false today exampleSeasonEpisodes = [1, 2, 3]) := by
  refine ⟨?_, ?_, ?_⟩
  · rw [mem_filter_episodes_iff]
    constructor
    · rintro ⟨e, hmem, hinc, hn⟩
      rcases (episode_included_true_iff today e).mp hinc with ⟨s, hs, d, hd, hlt⟩
      exact ⟨e, hmem, hn, s, hs, d, hd, hlt⟩
    · rintro ⟨e, hmem, hn, s, hs, d, hd, hlt⟩
      exact ⟨e, hmem, (episode_included_true_iff today e).mpr ⟨s, hs, d, hd, hlt⟩, hn⟩
  · rw [mem_filter_episodes_iff]
    constructor
    · rintro ⟨e, hmem, _, hn⟩
      exact ⟨e, hmem, hn⟩
    · rintro ⟨e, hmem, hn⟩
      exact ⟨e, hmem, episode_included_false today e, hn⟩
  · intro h1 h2
    have hp1 : parse_air_date "2020-01-01" = some ⟨2020, 1, 1⟩ := by decide
    have hp2 : parse_air_date "2999-01-01" = some ⟨2999, 1, 1⟩ := by decide
    have h2f : dateLt ⟨2999, 1, 1⟩ today = false := dateLt_asymm h2
    constructor
    · unfold filter_episodes exampleSeasonEpisodes
      simp [List.filter, episode_included, hp1, hp2, h1, h2f]
    · unfold filter_episodes exampleSeasonEpisodes
      simp [List.filter, episode_included, hp1, hp2]

/-- Witness for `air_date_filter_correct` at the spec's example: current
date 2024-01-01, which is after 2020-01-01 and before 2999-01-01. -/
theorem air_date_filter_correct_witness :
    filter_episodes true ⟨2024, 1, 1⟩ exampleSeasonEpisodes = [1] ∧
    filter_episodes false ⟨2024, 1, 1⟩ exampleSeasonEpisodes = [1, 2, 3] :=
  (air_date_filter_correct ⟨2024, 1, 1⟩ exampleSeasonEpisodes 0).2.2
    (by decide) (by decide)

/-- C1 falls on the code as stated: an episode airing exactly on the
current date has a parseable air date on or before the current date, so
the claim includes it, but `__filter_episodes` compares with strict `<`
and drops it. -/
theorem air_date_filter_counterexample :
    episode_included_spec true ⟨2024, 5, 5⟩ ⟨1, "e1", some "2024-05-05"⟩ = true ∧
    dateLe ⟨2024, 5, 5⟩ ⟨2024, 5, 5⟩ = true ∧
    parse_air_date "2024-05-05" = some ⟨2024, 5, 5⟩ ∧
    filter_episodes true ⟨2024, 5, 5⟩ [⟨1, "e1", some "2024-05-05"⟩] = [] := by
  refine ⟨?_, by decide, by decide, ?_⟩
  · decide
  · decide

/-! ## Season reconciler (`__get_item_no_exist_info`, lines 730-817)

The metadata acquisition around the season loop (TMDB id / media type
checks, poster and vote fallbacks) does not influence which seasons are
reported missing, so the embedding covers the season loop itself: the
catalog episode lister, the subscription-existence check and the air-date
policy switches are explicit parameters. -/

/-- Python dict lookup (`d.get(k)`) over an association list. -/
def lookupA {κ α : Type} [DecidableEq κ] : List (κ × α) → κ → Option α
  | [], _ => none
  | (k2, v) :: rest, k => if k2 = k then some v else lookupA rest k

/-- Python dict insertion (`d[k] = v`): replaces in place or appends. -/
def insertA {κ α : Type} [DecidableEq κ] : List (κ × α) → κ → α → List (κ × α)
  | [], k, v => [(k, v)]
  | (k2, v2) :: rest, k, v =>
    if k2 = k then (k, v) :: rest else (k2, v2) :: insertA rest k v

/-- Python dict deletion (`del d[k]`): removes the entry for `k`. -/
def eraseA {κ α : Type} [DecidableEq κ] : List (κ × α) → κ → List (κ × α)
  | [], _ => []
  | (k2, v2) :: rest, k => if k2 = k then rest else (k2, v2) :: eraseA rest k

/-- The per-season record built by `__append_season_info` (the TypedDict
`GetMissingEpisodesInfo`). -/
structure GetMissingEpisodesInfo where
  season : Nat
  episode_no_exist : List Nat
  episode_total : Nat
deriving DecidableEq, Repr

/-- Duplicate removal keeping first occurrences (`seen` accumulates the
values already emitted). -/
def dedupGo (seen : List Nat) : List Nat → List Nat
  | [] => []
  | x :: xs => if seen.contains x then dedupGo seen xs else x :: dedupGo (x :: seen) xs

/-- Duplicate removal keeping first occurrences; together with `filter`
this models `list(set(a).difference(set(b)))` (iteration order of small
CPython int sets, which callers treat as unordered anyway). -/
def dedupKeepFirst (l : List Nat) : List Nat :=
  dedupGo [] l

/-- `list(set(a).difference(set(b)))` from line 780. -/
def pySetDiff (a b : List Nat) : List Nat :=
  (dedupKeepFirst a).filter (fun x => !(b.contains x))

/-- One iteration of the "全部季不存在" loop (lines 733-753): used when
the local inventory is empty and `only_season_exist` is off.  Returns the
season entry to add, or `none` when the season is skipped. -/
def season_step_all_missing (only_aired : Bool) (today : PDate)
    (catalogEpisodes : Nat → List EpisodeMeta) (subscriptionExists : Nat → Bool)
    (season : Nat) : Option (Nat × GetMissingEpisodesInfo) :=
  if filter_episodes only_aired today (catalogEpisodes season) = [] then none
  else if subscriptionExists season then none
  else some (season,
    ⟨season, [], (filter_episodes only_aired today (catalogEpisodes season)).length⟩)

/-- One iteration of the per-season check loop (lines 757-817).  Note the
Python truthiness of `exist_episode`: a season stored with an empty
episode list takes the same branch as an absent season, which
`(lookupA ...).getD [] ≠ []` renders exactly. -/
def season_step_check (only_season_exist only_aired : Bool) (today : PDate)
    (catalogEpisodes : Nat → List EpisodeMeta) (subscriptionExists : Nat → Bool)
    (exist_season_info : List (Nat × List Nat)) (season : Nat) :
    Option (Nat × GetMissingEpisodesInfo) :=
  if filter_episodes only_aired today (catalogEpisodes season) = [] then none
  else if (lookupA exist_season_info season).getD [] ≠ [] then
    if pySetDiff (filter_episodes only_aired today (catalogEpisodes season))
        ((lookupA exist_season_info season).getD []) = [] then none
    else if subscriptionExists season then none
    else some (season,
      ⟨season,
        pySetDiff (filter_episodes only_aired today (catalogEpisodes season))
          ((lookupA exist_season_info season).getD []),
        (filter_episodes only_aired today (catalogEpisodes season)).length⟩)
  else
    if subscriptionExists season then none
    else if only_season_exist then none
    else some (season,
      ⟨season, [],
        (filter_episodes only_aired today (catalogEpisodes season)).length⟩)

/-- The season map `season_episode_no_exist_info` computed by
`__get_item_no_exist_info` (lines 730-817), keys in season order (the
source keys the dict by `str(season)`; seasons are distinct dict keys). -/
def get_item_no_exist_info_seasons (only_season_exist only_aired : Bool) (today : PDate)
    (catalogEpisodes : Nat → List EpisodeMeta) (subscriptionExists : Nat → Bool)
    (tmdbinfo_seasons : List Nat) (exist_season_info : List (Nat × List Nat)) :
    List (Nat × GetMissingEpisodesInfo) :=
  if exist_season_info = [] ∧ only_season_exist = false then
    tmdbinfo_seasons.filterMap
      (season_step_all_missing only_aired today catalogEpisodes subscriptionExists)
  else
    tmdbinfo_seasons.filterMap
      (season_step_check only_season_exist only_aired today catalogEpisodes
        subscriptionExists exist_season_info)

lemma season_step_all_missing_fst {oa : Bool} {today : PDate}
    {cat : Nat → List EpisodeMeta} {sub : Nat → Bool} {σ : Nat}
    {p : Nat × GetMissingEpisodesInfo}
    (h : season_step_all_missing oa today cat sub σ = some p) : p.1 = σ := by
  unfold season_step_all_missing at h
  split_ifs at h
  all_goals cases Option.some.inj h
  all_goals rfl

lemma season_step_check_fst {osx oa : Bool} {today : PDate}
    {cat : Nat → List EpisodeMeta} {sub : Nat → Bool}
    {inv : List (Nat × List Nat)} {σ : Nat} {p : Nat × GetMissingEpisodesInfo}
    (h : season_step_check osx oa today cat sub inv σ = some p) : p.1 = σ := by
  unfold season_step_check at h
  split_ifs at h
  all_goals cases Option.some.inj h
  all_goals rfl

lemma season_step_all_missing_sub {oa : Bool} {today : PDate}
    {cat : Nat → List EpisodeMeta} {sub : Nat → Bool} {σ : Nat}
    (h : sub σ = true) : season_step_all_missing oa today cat sub σ = none := by
  unfold season_step_all_missing
  split_ifs <;> simp_all

lemma season_step_check_sub {osx oa : Bool} {today : PDate}
    {cat : Nat → List EpisodeMeta} {sub : Nat → Bool}
    {inv : List (Nat × List Nat)} {σ : Nat}
    (h : sub σ = true) : season_step_check osx oa today cat sub inv σ = none := by
  unfold season_step_check
  split_ifs <;> simp_all

lemma filterMap_eq_map_of_forall {α β : Type} (f : α → Option β) (g : α → β)
    (l : List α) (H : ∀ a ∈ l, f a = some (g a)) : l.filterMap f = l.map g := by
  induction l with
  | nil => rfl
  | cons x xs ih =>
    rw [List.filterMap_cons, H x (by simp), List.map_cons,
      ih (fun a ha => H a (by simp [ha]))]

/-- C2: with an entirely empty local inventory, catalog seasons whose
countable episode list is non-empty and which have no existing
subscription are all suppressed when `onlySeasonExist` is on, and are all
emitted as whole-season-missing (`episode_no_exist = []`,
`episode_total` = countable size) when it is off. -/
theorem whole_season_missing_suppression (oa : Bool) (today : PDate)
    (cat : Nat → List EpisodeMeta) (sub : Nat → Bool) (seasons : List Nat)
    (H : ∀ s ∈ seasons, filter_episodes oa today (cat s) ≠ [] ∧ sub s = false) :
    get_item_no_exist_info_seasons true oa today cat sub seasons [] = [] ∧
    get_item_no_exist_info_seasons false oa today cat sub seasons [] =
      seasons.map (fun s =>
        (s, ⟨s, [], (filter_episodes oa today (cat s)).length⟩)) := by
  constructor
  · unfold get_item_no_exist_info_seasons
    rw [if_neg (by simp)]
    rw [List.filterMap_eq_nil_iff]
    intro s _
    unfold season_step_check
    split_ifs <;> simp_all [lookupA]
  · unfold get_item_no_exist_info_seasons
    rw [if_pos ⟨rfl, rfl⟩]
    exact filterMap_eq_map_of_forall _ _ _ (fun s hs => by
      obtain ⟨hf, hsub⟩ := H s hs
      unfold season_step_all_missing
      rw [if_neg hf, if_neg (by simp [hsub])])

/-- Witness for `whole_season_missing_suppression`: the spec's concrete
scenario (catalog season 1 with countable episodes `[1,2,3]`). -/
theorem whole_season_missing_suppression_witness :
    get_item_no_exist_info_seasons true false ⟨2024, 1, 1⟩
      (fun _ => [⟨1, "a", none⟩, ⟨2, "b", none⟩, ⟨3, "c", none⟩])
      (fun _ => false) [1] [] = [] ∧
    get_item_no_exist_info_seasons false false ⟨2024, 1, 1⟩
      (fun _ => [⟨1, "a", none⟩, ⟨2, "b", none⟩, ⟨3, "c", none⟩])
      (fun _ => false) [1] [] = [(1, ⟨1, [], 3⟩)] := by
  have h := whole_season_missing_suppression false ⟨2024, 1, 1⟩
    (fun _ => [⟨1, "a", none⟩, ⟨2, "b", none⟩, ⟨3, "c", none⟩])
    (fun _ => false) [1] (by decide)
  exact ⟨h.1, h.2.trans (by decide)⟩

lemma season_step_check_truthy_none {osx oa : Bool} {today : PDate}
    {cat : Nat → List EpisodeMeta} {sub : Nat → Bool}
    {inv : List (Nat × List Nat)} {s : Nat} {l : List Nat}
    (hs : lookupA inv s = some l) (hl : l ≠ [])
    (hlack : pySetDiff (filter_episodes oa today (cat s)) l = []) :
    season_step_check osx oa today cat sub inv s = none := by
  unfold season_step_check
  rw [hs]
  simp only [Option.getD_some]
  split_ifs <;> simp_all

lemma season_step_check_truthy_some {osx oa : Bool} {today : PDate}
    {cat : Nat → List EpisodeMeta} {sub : Nat → Bool}
    {inv : List (Nat × List Nat)} {s : Nat} {l : List Nat}
    (hs : lookupA inv s = some l) (hl : l ≠ [])
    (hlack : pySetDiff (filter_episodes oa today (cat s)) l ≠ [])
    (hsub : sub s = false) :
    season_step_check osx oa today cat sub inv s =
      some (s, ⟨s, pySetDiff (filter_episodes oa today (cat s)) l,
        (filter_episodes oa today (cat s)).length⟩) := by
  have hf : filter_episodes oa today (cat s) ≠ [] := by
    intro h0
    apply hlack
    rw [h0]
    rfl
  unfold season_step_check
  rw [hs]
  simp only [Option.getD_some]
  rw [if_neg hf, if_pos hl, if_neg hlack, if_neg (by simp [hsub])]

lemma lookupA_ne_nil {κ α : Type} [DecidableEq κ] {inv : List (κ × α)} {s : κ}
    {l : α} (hs : lookupA inv s = some l) : inv ≠ [] := by
  intro h0
  rw [h0] at hs
  exact Option.noConfusion hs

/-- C3 (amended): for a season stored in the local inventory with a
NON-EMPTY episode list `L` (Python's `if exist_episode:` treats a stored
empty list like an absent season) and countable catalog list `C`:
no entry is emitted when `C − L` is empty, and otherwise, absent a
subscription, the emitted entry carries `episode_no_exist = C − L` and
`episode_total = |C|`; on the spec's concrete example the output is
exactly `{1: {episode_no_exist: [3,4], episode_total: 4}}`. -/
theorem partial_missing_correct (osx oa : Bool) (today : PDate)
    (cat : Nat → List EpisodeMeta) (sub : Nat → Bool) (seasons : List Nat)
    (inv : List (Nat × List Nat)) (s : Nat) (l : List Nat)
    (hmem : s ∈ seasons) (hs : lookupA inv s = some l) (hl : l ≠ []) :
    (pySetDiff (filter_episodes oa today (cat s)) l = [] →
      s ∉ (get_item_no_exist_info_seasons osx oa today cat sub seasons inv).map
        Prod.fst) ∧
    (pySetDiff (filter_episodes oa today (cat s)) l ≠ [] → sub s = false →
      (s, ⟨s, pySetDiff (filter_episodes oa today (cat s)) l,
        (filter_episodes oa today (cat s)).length⟩) ∈
        get_item_no_exist_info_seasons osx oa today cat sub seasons inv) ∧
    get_item_no_exist_info_seasons false false ⟨2024, 1, 1⟩
      (fun _ => [⟨1, "a", none⟩, ⟨2, "b", none⟩, ⟨3, "c", none⟩, ⟨4, "d", none⟩])
      (fun _ => false) [1] [(1, [1, 2])] = [(1, ⟨1, [3, 4], 4⟩)] := by
  have hinv : inv ≠ [] := lookupA_ne_nil hs
  have hbranch : get_item_no_exist_info_seasons osx oa today cat sub seasons inv =
      seasons.filterMap (season_step_check osx oa today cat sub inv) := by
    unfold get_item_no_exist_info_seasons
    rw [if_neg (fun hand => hinv hand.1)]
  refine ⟨?_, ?_, by decide⟩
  · intro hlack hcon
    rw [hbranch, List.mem_map] at hcon
    obtain ⟨p, hp, hfst⟩ := hcon
    rw [List.mem_filterMap] at hp
    obtain ⟨σ, _, hstep⟩ := hp
    have hpσ : p.1 = σ := season_step_check_fst hstep
    rw [hpσ] at hfst
    rw [hfst] at hstep
    rw [season_step_check_truthy_none hs hl hlack] at hstep
    exact Option.noConfusion hstep
  · intro hlack hsub
    rw [hbranch, List.mem_filterMap]
    exact ⟨s, hmem, season_step_check_truthy_some hs hl hlack hsub⟩

/-- Witness for `partial_missing_correct` at the spec's example: local
inventory `{1: [1,2]}`, countable `[1,2,3,4]`, no subscription. -/
theorem partial_missing_correct_witness :
    (1, (⟨1, [3, 4], 4⟩ : GetMissingEpisodesInfo)) ∈
      get_item_no_exist_info_seasons false false ⟨2024, 1, 1⟩
        (fun _ => [⟨1, "a", none⟩, ⟨2, "b", none⟩, ⟨3, "c", none⟩, ⟨4, "d", none⟩])
        (fun _ => false) [1] [(1, [1, 2])] := by
  have h := partial_missing_correct false false ⟨2024, 1, 1⟩
    (fun _ => [⟨1, "a", none⟩, ⟨2, "b", none⟩, ⟨3, "c", none⟩, ⟨4, "d", none⟩])
    (fun _ => false) [1] [(1, [1, 2])] 1 [1, 2]
    (by decide) (by decide) (by decide)
  have h2 := h.2.1 (by decide) rfl
  simpa using h2

/-- C3 falls on the code as stated: a season PRESENT in the local
inventory with an explicitly empty episode list (`{1: []}`) has
`C − L = C = [1,2]` non-empty and no subscription, so the claim demands
an entry `{episode_no_exist: [1,2]}`; the code's `if exist_episode:`
treats the empty list as season-absent, emitting nothing under
`onlySeasonExist = true` and a whole-season marker `episode_no_exist = []`
under `onlySeasonExist = false`. -/
theorem partial_missing_counterexample :
    lookupA [(1, ([] : List Nat))] 1 = some [] ∧
    filter_episodes false ⟨2024, 1, 1⟩ [⟨1, "a", none⟩, ⟨2, "b", none⟩] = [1, 2] ∧
    pySetDiff [1, 2] [] = [1, 2] ∧
    get_item_no_exist_info_seasons true false ⟨2024, 1, 1⟩
      (fun _ => [⟨1, "a", none⟩, ⟨2, "b", none⟩]) (fun _ => false)
      [1] [(1, [])] = [] ∧
    get_item_no_exist_info_seasons false false ⟨2024, 1, 1⟩
      (fun _ => [⟨1, "a", none⟩, ⟨2, "b", none⟩]) (fun _ => false)
      [1] [(1, [])] = [(1, ⟨1, [], 2⟩)] := by
  refine ⟨by decide, by decide, by decide, by decide, by decide⟩

/-- C4: a season with an existing subscription never appears in the
reconciliation output, whatever the local inventory and the
`onlySeasonExist` / `airedOnly` settings. -/
theorem subscription_dedup (osx oa : Bool) (today : PDate)
    (cat : Nat → List EpisodeMeta) (sub : Nat → Bool) (seasons : List Nat)
    (inv : List (Nat × List Nat)) (s : Nat) (hsub : sub s = true) :
    s ∉ (get_item_no_exist_info_seasons osx oa today cat sub seasons inv).map
      Prod.fst := by
  intro hcon
  unfold get_item_no_exist_info_seasons at hcon
  split_ifs at hcon
  · rw [List.mem_map] at hcon
    obtain ⟨p, hp, hfst⟩ := hcon
    rw [List.mem_filterMap] at hp
    obtain ⟨σ, _, hstep⟩ := hp
    have hpσ : p.1 = σ := season_step_all_missing_fst hstep
    rw [hpσ] at hfst
    rw [hfst] at hstep
    rw [season_step_all_missing_sub hsub] at hstep
    exact Option.noConfusion hstep
  · rw [List.mem_map] at hcon
    obtain ⟨p, hp, hfst⟩ := hcon
    rw [List.mem_filterMap] at hp
    obtain ⟨σ, _, hstep⟩ := hp
    have hpσ : p.1 = σ := season_step_check_fst hstep
    rw [hpσ] at hfst
    rw [hfst] at hstep
    rw [season_step_check_sub hsub] at hstep
    exact Option.noConfusion hstep

/-- Witness for `subscription_dedup`: season 1 fully absent locally with
countable episodes and a subscription in place is still not reported. -/
theorem subscription_dedup_witness :
    (fun _ : Nat => true) 1 = true ∧
    1 ∉ (get_item_no_exist_info_seasons false false ⟨2024, 1, 1⟩
      (fun _ => [⟨1, "a", none⟩, ⟨2, "b", none⟩]) (fun _ => true)
      [1] []).map Prod.fst :=
  ⟨rfl, subscription_dedup false false ⟨2024, 1, 1⟩
    (fun _ => [⟨1, "a", none⟩, ⟨2, "b", none⟩]) (fun _ => true) [1] [] 1 rfl⟩

/-! ## History ledger (`__append_history` lines 412-438, `HistoryDetail`
lines 126-131, `__remove_history_by_unique` lines 926-934,
`__update_exist_status_by_unique` lines 1002-1012, the key-present core of
`toggle_skip_history` lines 1197-1206) -/

/-- The `HistoryStatus` enum (its `.value` strings are produced by
`historyStatusValue`). -/
inductive HistoryStatus where
  | UNKNOW
  | ALL_EXIST
  | ADDED_RSS
  | NO_EXIST
  | FAILED
deriving DecidableEq, Repr

/-- `HistoryStatus.<c>.value`: the stored status strings. -/
def historyStatusValue : HistoryStatus → String
  | HistoryStatus.UNKNOW => "未知状态"
  | HistoryStatus.ALL_EXIST => "全部存在"
  | HistoryStatus.ADDED_RSS => "已加订阅"
  | HistoryStatus.NO_EXIST => "存在缺失"
  | HistoryStatus.FAILED => "获取失败"

/-- The `TvNoExistInfo` TypedDict.  `vote_average` is declared
`float | str` in the source and never branched on, so it is carried as
its rendered string here. -/
structure TvNoExistInfo where
  title : String
  year : String
  path : String
  tmdbid : Nat
  poster_path : String
  vote_average : String
  last_air_date : String
  season_episode_no_exist_info : List (Nat × GetMissingEpisodesInfo)
deriving DecidableEq, Repr

/-- The two `strftime` renderings of `datetime.datetime.now(...)` stored
by `__append_history` (`"%m-%d %H:%M"` and `"%Y-%m-%d %H:%M:%S"`). -/
structure TimeStamp where
  short : String
  full : String
deriving DecidableEq, Repr

/-- The persisted `HistoryDetail` TypedDict: exactly these five fields —
the record has no first-found or last-status-change timestamps. -/
structure HistoryDetail where
  exist_status : String
  tv_no_exist_info : Option TvNoExistInfo
  last_update : String
  last_update_full : String
  skip : Bool
deriving DecidableEq, Repr

/-- The persisted `History` blob: `{"details": {unique: HistoryDetail}}`. -/
structure History where
  details : List (String × HistoryDetail)
deriving DecidableEq, Repr

/-- `__append_history` (lines 412-438): builds a fresh record from the
incoming status, result payload and current time, carrying over only the
prior record's `skip` flag (`False` when the key is new), and stores it
under the key.  A falsy (empty) incoming payload is stored as `None`,
rendered here by the `Option` argument. -/
def append_history (h : History) (item_unique_flag : String)
    (exist_status : HistoryStatus) (tv_no_exist_info : Option TvNoExistInfo)
    (current_time : TimeStamp) : History :=
  ⟨insertA h.details item_unique_flag
    ⟨historyStatusValue exist_status, tv_no_exist_info,
      current_time.short, current_time.full,
      match lookupA h.details item_unique_flag with
      | some d => d.skip
      | none => false⟩⟩

/-- `__remove_history_by_unique` (lines 926-934). -/
def remove_history_by_unique (h : History) (unique : String) : Bool × History :=
  match lookupA h.details unique with
  | some _ => (true, ⟨eraseA h.details unique⟩)
  | none => (false, h)

/-- `__update_exist_status_by_unique` (lines 1002-1012): overwrites only
the `exist_status` field of an existing record. -/
def update_exist_status_by_unique (h : History) (unique new_status : String) :
    Bool × History :=
  match lookupA h.details unique with
  | some d => (true, ⟨insertA h.details unique {d with exist_status := new_status}⟩)
  | none => (false, h)

/-- The ledger mutation inside `toggle_skip_history` (lines 1197-1206):
negate the stored `skip` flag when the key exists, fail otherwise.  (The
surrounding API-token check and blob load/save are host glue.) -/
def toggle_skip_history (h : History) (key : String) : Bool × History :=
  match lookupA h.details key with
  | some d => (true, ⟨insertA h.details key {d with skip := !d.skip}⟩)
  | none => (false, h)

lemma lookupA_insertA_self {κ α : Type} [DecidableEq κ]
    (l : List (κ × α)) (k : κ) (v : α) :
    lookupA (insertA l k v) k = some v := by
  induction l with
  | nil => simp [insertA, lookupA]
  | cons p rest ih =>
    obtain ⟨k2, v2⟩ := p
    unfold insertA
    split_ifs with hk
    · simp [lookupA]
    · unfold lookupA
      rw [if_neg hk]
      exact ih

/-- C5 (amended): on every upsert the stored record is rebuilt whole: its
`last_update` / `last_update_full` timestamps are set to the current time
unconditionally — whether or not the incoming status differs — and the
only field carried over from a prior record is `skip`; the record has no
separate first-found or last-status-change timestamps. -/
theorem history_upsert_overwrites (h : History) (key : String)
    (status : HistoryStatus) (info : Option TvNoExistInfo) (now : TimeStamp) :
    lookupA (append_history h key status info now).details key =
      some ⟨historyStatusValue status, info, now.short, now.full,
        match lookupA h.details key with
        | some d => d.skip
        | none => false⟩ := by
  unfold append_history
  exact lookupA_insertA_self _ _ _

/-- C5 falls on the code as stated: upserting a record with the SAME
exist-status as stored still rewrites the stored timestamp to the new
current time ("otherwise the old last-status-change value is kept" fails),
and no first-found timestamp exists to be preserved — the prior record's
timestamps are lost entirely. -/
theorem history_upsert_counterexample :
    historyStatusValue HistoryStatus.NO_EXIST =
      (HistoryDetail.mk "存在缺失" none "01-01 00:00" "2024-01-01 00:00:00"
        false).exist_status ∧
    (lookupA (append_history
        ⟨[("k", ⟨"存在缺失", none, "01-01 00:00", "2024-01-01 00:00:00", false⟩)]⟩
        "k" HistoryStatus.NO_EXIST none ⟨"02-02 11:11", "2024-02-02 11:11:11"⟩).details
      "k").map (fun d => d.last_update_full) = some "2024-02-02 11:11:11" ∧
    ("2024-02-02 11:11:11" : String) ≠ "2024-01-01 00:00:00" := by
  refine ⟨by decide, by decide, by decide⟩

/-- C6: once a stored record has `skip = true`, every upsert with any
status and payload leaves `skip = true`, and the status-update mutation
leaves it untouched too; only the explicit skip-toggle on that key turns
it back off. -/
theorem skip_monotonic (h : History) (key : String) (d : HistoryDetail)
    (hd : lookupA h.details key = some d) (hskip : d.skip = true) :
    (∀ status info now,
      (lookupA (append_history h key status info now).details key).map
        (fun r => r.skip) = some true) ∧
    (∀ ns, (lookupA (update_exist_status_by_unique h key ns).2.details key).map
        (fun r => r.skip) = some true) ∧
    (lookupA (toggle_skip_history h key).2.details key).map
      (fun r => r.skip) = some false := by
  refine ⟨?_, ?_, ?_⟩
  · intro status info now
    unfold append_history
    rw [lookupA_insertA_self]
    simp [hd, hskip]
  · intro ns
    unfold update_exist_status_by_unique
    rw [hd]
    simp only []
    rw [lookupA_insertA_self]
    simp [hskip]
  · unfold toggle_skip_history
    rw [hd]
    simp only []
    rw [lookupA_insertA_self]
    simp [hskip]

/-- Witness for `skip_monotonic` on a one-record ledger with `skip = true`. -/
theorem skip_monotonic_witness :
    (lookupA (append_history ⟨[("k", ⟨"存在缺失", none, "t", "tf", true⟩)]⟩
        "k" HistoryStatus.ALL_EXIST none ⟨"u", "uf"⟩).details "k").map
      (fun r => r.skip) = some true ∧
    (lookupA (update_exist_status_by_unique
        ⟨[("k", ⟨"存在缺失", none, "t", "tf", true⟩)]⟩ "k" "全部存在").2.details
      "k").map (fun r => r.skip) = some true ∧
    (lookupA (toggle_skip_history
        ⟨[("k", ⟨"存在缺失", none, "t", "tf", true⟩)]⟩ "k").2.details "k").map
      (fun r => r.skip) = some false := by
  have h := skip_monotonic ⟨[("k", ⟨"存在缺失", none, "t", "tf", true⟩)]⟩ "k"
    ⟨"存在缺失", none, "t", "tf", true⟩ (by decide) rfl
  exact ⟨h.1 HistoryStatus.ALL_EXIST none ⟨"u", "uf"⟩, h.2.1 "全部存在", h.2.2⟩

/-- C9: on a key absent from the ledger, delete, set-status and
skip-toggle all report failure and leave the ledger unchanged, while the
upsert never fails: for any key it leaves a record carrying the incoming
status. -/
theorem absent_key_operations (h : History) (key : String)
    (habs : lookupA h.details key = none) :
    remove_history_by_unique h key = (false, h) ∧
    (∀ ns, update_exist_status_by_unique h key ns = (false, h)) ∧
    toggle_skip_history h key = (false, h) ∧
    (∀ (key2 : String) status info now,
      (lookupA (append_history h key2 status info now).details key2).map
        (fun r => r.exist_status) = some (historyStatusValue status)) := by
  refine ⟨?_, ?_, ?_, ?_⟩
  · unfold remove_history_by_unique
    rw [habs]
  · intro ns
    unfold update_exist_status_by_unique
    rw [habs]
  · unfold toggle_skip_history
    rw [habs]
  · intro key2 status info now
    unfold append_history
    rw [lookupA_insertA_self]
    rfl

/-- Witness for `absent_key_operations`: key `"b"` absent from a
one-record ledger; the upsert part instantiated at the same key. -/
theorem absent_key_operations_witness :
    remove_history_by_unique ⟨[("a", ⟨"未知状态", none, "t", "tf", false⟩)]⟩ "b" =
      (false, ⟨[("a", ⟨"未知状态", none, "t", "tf", false⟩)]⟩) ∧
    (lookupA (append_history ⟨[("a", ⟨"未知状态", none, "t", "tf", false⟩)]⟩
        "b" HistoryStatus.FAILED none ⟨"u", "uf"⟩).details "b").map
      (fun r => r.exist_status) = some (historyStatusValue HistoryStatus.FAILED) := by
  have h := absent_key_operations ⟨[("a", ⟨"未知状态", none, "t", "tf", false⟩)]⟩
    "b" (by decide)
  exact ⟨h.1, h.2.2.2 "b" HistoryStatus.FAILED none ⟨"u", "uf"⟩⟩

/-! ## Subscription filer (`__checke_and_add_subscribe` lines 936-1000,
`__add_subscribe_by_tv_no_exist_info` lines 1014-1082) and the scan-loop
status dispatch (lines 550-620) -/

/-- Python `str.strip()`: drop whitespace from both ends. -/
def pyStrip (l : List Char) : List Char :=
  ((l.dropWhile Char.isWhitespace).reverse.dropWhile Char.isWhitespace).reverse

/-- Python `pat in s` (substring-anywhere containment) over char lists. -/
def isSubstrL (pat : List Char) : List Char → Bool
  | [] => pat.isEmpty
  | c :: cs => pat.isPrefixOf (c :: cs) || isSubstrL pat cs

/-- Python `pat in s` on strings. -/
def isSubstr (pat s : String) : Bool :=
  isSubstrL pat.data s.data

/-- Python `s.replace(pat, rep)`: left-to-right, non-overlapping, every
occurrence.  Fuel-driven so the definition evaluates in the kernel; each
step consumes at least one character, so `s.length` fuel is exact. -/
def pyReplaceFuel (pat rep : List Char) : Nat → List Char → List Char
  | _, [] => []
  | 0, s => s
  | fuel + 1, c :: cs =>
    if pat ≠ [] ∧ pat.isPrefixOf (c :: cs) then
      rep ++ pyReplaceFuel pat rep fuel ((c :: cs).drop pat.length)
    else c :: pyReplaceFuel pat rep fuel cs

/-- Python `s.replace(pat, rep)` on strings. -/
def pyReplace (s pat rep : String) : String :=
  ⟨pyReplaceFuel pat.data rep.data s.data.length s.data⟩

/-- The normalized POSIX path components used by `pathlib`: split on `/`,
drop empty and `.` segments. -/
def pathComponents (p : String) : List (List Char) :=
  (pySplitOn '/' p.data).filter (fun c => !c.isEmpty && c != ['.'])

/-- `str(Path(p).parent)` for POSIX paths: normalize away empty and `.`
components, drop the last component; the parent of a root stays `/`, the
parent of a single relative component is `.`. -/
def pathParent (p : String) : String :=
  if (pathComponents p).dropLast = [] then
    if p.data.head? = some '/' then "/" else "."
  else
    (if p.data.head? = some '/' then "/" else "") ++
      ⟨((pathComponents p).dropLast.intersperse ['/']).flatten⟩

/-- The rule parsing in `__checke_and_add_subscribe` (lines 950-958):
split on `:`, strip each part, drop empties; usable only with at least
two parts, which become (library-path pattern, replacement). -/
def parse_replace_rule (rule : String) : Option (String × String) :=
  match ((pySplitOn ':' rule.data).map pyStrip).filter (fun part => !part.isEmpty) with
  | p1 :: p2 :: _ => some (⟨p1⟩, ⟨p2⟩)
  | _ => none

/-- The scanning loop of lines 949-968: first rule whose pattern occurs
as a substring ANYWHERE in `save_path` wins, and the override is
`str(Path(save_path).parent).replace(pattern, replacement)`. -/
def resolve_save_path_rules (save_path : String) : List String → Option String
  | [] => none
  | rule :: rest =>
    match parse_replace_rule rule with
    | none => resolve_save_path_rules save_path rest
    | some (lib, rep) =>
      if isSubstr lib save_path then
        some (pyReplace (pathParent save_path) lib rep)
      else resolve_save_path_rules save_path rest

/-- The `save_path_replaced` computation of `__checke_and_add_subscribe`
(lines 948-968), including the guarding
`if self._save_path_replaces and save_path:` truthiness check;
`none` means no override is applied. -/
def resolve_save_path (rules : List String) (save_path : String) : Option String :=
  if rules = [] ∨ save_path = "" then none
  else resolve_save_path_rules save_path rules

/-- One successful `self._subChain.add(...)` call as observed by the
external subscription service (its payload). -/
structure FiledRequest where
  title : String
  year : String
  tmdbid : Nat
  season : Nat
  save_path : Option String
  total_episode : Nat
deriving DecidableEq, Repr

/-- The external collaborators of the filer: `self._subOper.exists`
(per season, the series being fixed) and the outcome of
`self._subChain.add` for a season. -/
structure SubEnv where
  subExists : Nat → Bool
  addOk : Nat → Bool

/-- `__checke_and_add_subscribe` (lines 936-1000): an existing
subscription short-circuits to success WITHOUT calling the external add;
otherwise the add call's outcome decides, and a successful call appends
its payload to the external service's state (`filed`), which is never shrunk. -/
def checke_and_add_subscribe (env : SubEnv) (rules : List String)
    (title year : String) (tmdbid season : Nat) (save_path : String)
    (total_episode : Nat) (filed : List FiledRequest) : Bool × List FiledRequest :=
  if env.subExists season then (true, filed)
  else if env.addOk season then
    (true, filed ++
      [⟨title, year, tmdbid, season, resolve_save_path rules save_path, total_episode⟩])
  else (false, filed)

/-- The season loop of `__add_subscribe_by_tv_no_exist_info`
(lines 1037-1082): whole-season entries (`episode_no_exist` empty) are
skipped when `only_season_exist` is set; the first failed filing aborts
with `False`, leaving earlier filings in place.  (The source iterates
dict keys `str(season)` and re-parses them with `int`; season keys here
are already the numbers, on which `int(str(season))` never fails.) -/
def add_subscribe_seasons (env : SubEnv) (rules : List String) (osx : Bool)
    (title year : String) (tmdbid : Nat) (save_path : String) :
    List (Nat × GetMissingEpisodesInfo) → List FiledRequest → Bool × List FiledRequest
  | [], filed => (true, filed)
  | (season, sinfo) :: rest, filed =>
    if sinfo.episode_no_exist = [] ∧ osx = true then
      add_subscribe_seasons env rules osx title year tmdbid save_path rest filed
    else
      match checke_and_add_subscribe env rules title year tmdbid season save_path
          sinfo.episode_total filed with
      | (true, filed2) =>
        add_subscribe_seasons env rules osx title year tmdbid save_path rest filed2
      | (false, filed2) => (false, filed2)

/-- `__add_subscribe_by_tv_no_exist_info` (lines 1014-1082): fails
immediately when title, year, TMDB id or the missing-season map is
falsy (empty / zero), else runs the season loop. -/
def add_subscribe_by_tv_no_exist_info (env : SubEnv) (rules : List String)
    (osx : Bool) (info : TvNoExistInfo) (filed : List FiledRequest) :
    Bool × List FiledRequest :=
  if info.title = "" ∨ info.year = "" ∨ info.tmdbid = 0
      ∨ info.season_episode_no_exist_info = [] then
    (false, filed)
  else
    add_subscribe_seasons env rules osx info.title info.year info.tmdbid info.path
      info.season_episode_no_exist_info filed

/-- The `NoExistAction` enum. -/
inductive NoExistAction where
  | ONLY_HISTORY
  | ADD_SUBSCRIBE
  | SET_ALL_EXIST
deriving DecidableEq, Repr

/-- The per-item status dispatch of the scan loop (lines 550-620): the
status under which `__append_history` records the item, together with the
external subscription state after any filing.  (`tv_no_exist_info` is a
populated dict in the source and hence always truthy.) -/
def process_scan_result (env : SubEnv) (rules : List String) (osx : Bool)
    (action : NoExistAction) (is_ok : Bool) (info : TvNoExistInfo)
    (filed : List FiledRequest) : HistoryStatus × List FiledRequest :=
  if is_ok then
    if info.season_episode_no_exist_info = [] then (HistoryStatus.ALL_EXIST, filed)
    else
      match action with
      | NoExistAction.ADD_SUBSCRIBE =>
        match add_subscribe_by_tv_no_exist_info env rules osx info filed with
        | (true, filed2) => (HistoryStatus.ADDED_RSS, filed2)
        | (false, filed2) => (HistoryStatus.NO_EXIST, filed2)
      | NoExistAction.SET_ALL_EXIST => (HistoryStatus.ALL_EXIST, filed)
      | NoExistAction.ONLY_HISTORY => (HistoryStatus.NO_EXIST, filed)
  else (HistoryStatus.FAILED, filed)

lemma resolve_save_path_rules_none_iff (sp : String) (rules : List String) :
    resolve_save_path_rules sp rules = none ↔
      ∀ r ∈ rules, ∀ lib rep, parse_replace_rule r = some (lib, rep) →
        isSubstr lib sp = false := by
  induction rules with
  | nil => simp [resolve_save_path_rules]
  | cons r rest ih =>
    unfold resolve_save_path_rules
    rw [List.forall_mem_cons]
    cases hr : parse_replace_rule r with
    | none =>
      simp only []
      constructor
      · intro hrec
        refine ⟨fun lib rep hlr => ?_, ih.mp hrec⟩
        exact Option.noConfusion hlr
      · intro hand
        exact ih.mpr hand.2
    | some p =>
      obtain ⟨lib, rep⟩ := p
      simp only []
      by_cases hsub : isSubstr lib sp = true
      · rw [if_pos hsub]
        constructor
        · intro hcon
          exact Option.noConfusion hcon
        · intro hand
          have := hand.1 lib rep rfl
          rw [hsub] at this
          exact Bool.noConfusion this
      · rw [if_neg hsub]
        constructor
        · intro hrec
          refine ⟨fun lib2 rep2 hlr => ?_, ih.mp hrec⟩
          cases Option.some.inj hlr
          exact Bool.eq_false_iff.mpr hsub
        · intro hand
          exact ih.mpr hand.2

lemma resolve_save_path_rules_first_match (sp : String) (pre : List String) :
    ∀ (r : String) (post : List String) (lib rep : String),
      parse_replace_rule r = some (lib, rep) → isSubstr lib sp = true →
      (∀ r2 ∈ pre, ∀ lib2 rep2, parse_replace_rule r2 = some (lib2, rep2) →
        isSubstr lib2 sp = false) →
      resolve_save_path_rules sp (pre ++ r :: post) =
        some (pyReplace (pathParent sp) lib rep) := by
  induction pre with
  | nil =>
    intro r post lib rep hr hsub _
    rw [List.nil_append]
    unfold resolve_save_path_rules
    rw [hr]
    simp only []
    rw [if_pos hsub]
  | cons r0 rest ih =>
    intro r post lib rep hr hsub hpre
    rw [List.cons_append]
    unfold resolve_save_path_rules
    cases hr0 : parse_replace_rule r0 with
    | none =>
      simp only []
      exact ih r post lib rep hr hsub
        (fun r2 h2 lib2 rep2 hp2 => hpre r2 (List.mem_cons_of_mem r0 h2) lib2 rep2 hp2)
    | some p =>
      obtain ⟨lib0, rep0⟩ := p
      simp only []
      have h0 : isSubstr lib0 sp = false :=
        hpre r0 (List.mem_cons_self r0 rest) lib0 rep0 hr0
      rw [if_neg (by rw [h0]; exact Bool.false_ne_true)]
      exact ih r post lib rep hr hsub
        (fun r2 h2 lib2 rep2 hp2 => hpre r2 (List.mem_cons_of_mem r0 h2) lib2 rep2 hp2)

/-- C7 (amended): the filer scans the configured `pattern:replacement`
rules in order and applies the FIRST well-formed rule whose pattern
occurs as a substring ANYWHERE in the series' local path (not only as a
prefix); the override it produces is the path's PARENT directory with
every occurrence of the pattern replaced; when no rule's pattern occurs
in the path, no override is applied. -/
theorem save_path_resolution (rules : List String) (save_path : String)
    (hpath : save_path ≠ "") :
    (resolve_save_path rules save_path = none ↔
      ∀ r ∈ rules, ∀ lib rep, parse_replace_rule r = some (lib, rep) →
        isSubstr lib save_path = false) ∧
    (∀ (pre : List String) (r : String) (post : List String) (lib rep : String),
      rules = pre ++ r :: post →
      parse_replace_rule r = some (lib, rep) → isSubstr lib save_path = true →
      (∀ r2 ∈ pre, ∀ lib2 rep2, parse_replace_rule r2 = some (lib2, rep2) →
        isSubstr lib2 save_path = false) →
      resolve_save_path rules save_path =
        some (pyReplace (pathParent save_path) lib rep)) := by
  constructor
  · unfold resolve_save_path
    by_cases hr : rules = []
    · subst hr
      rw [if_pos (Or.inl rfl)]
      simp
    · rw [if_neg (by rintro (h | h); exact hr h; exact hpath h)]
      exact resolve_save_path_rules_none_iff save_path rules
  · intro pre r post lib rep heq hparse hsub hpre
    unfold resolve_save_path
    rw [if_neg (by
      rintro (h | h)
      · rw [heq] at h
        exact List.noConfusion (List.append_eq_nil.mp h).2
      · exact hpath h)]
    rw [heq]
    exact resolve_save_path_rules_first_match save_path pre r post lib rep
      hparse hsub hpre

/-- Witness for `save_path_resolution`: a malformed first rule is
skipped, the second rule `/media:/vol1` prefix-matches `/media/tv/Show`
and rewrites its parent `/media/tv` to `/vol1/tv`; and with no matching
rule the override is `none`. -/
theorem save_path_resolution_witness :
    resolve_save_path ["nocolon", "/media:/vol1"] "/media/tv/Show" =
      some "/vol1/tv" ∧
    resolve_save_path ["/other:/vol1"] "/media/tv/Show" = none := by
  have h := save_path_resolution ["nocolon", "/media:/vol1"] "/media/tv/Show"
    (by decide)
  have h2 := save_path_resolution ["/other:/vol1"] "/media/tv/Show" (by decide)
  constructor
  · have hfirst : ∀ r2 ∈ ["nocolon"], ∀ lib2 rep2,
        parse_replace_rule r2 = some (lib2, rep2) →
        isSubstr lib2 "/media/tv/Show" = false := by
      intro r2 hr2 lib2 rep2 hp2
      rw [List.mem_singleton] at hr2
      subst hr2
      rw [(by decide : parse_replace_rule "nocolon" = none)] at hp2
      exact Option.noConfusion hp2
    have := h.2 ["nocolon"] "/media:/vol1" [] "/media" "/vol1" rfl (by decide)
      (by decide) hfirst
    rw [this]
    decide
  · refine h2.1.mpr ?_
    intro r hr lib rep hp
    rw [List.mem_singleton] at hr
    subst hr
    rw [(by decide : parse_replace_rule "/other:/vol1" =
      some ("/other", "/vol1"))] at hp
    cases Option.some.inj hp
    decide

/-- C7 falls on the code as stated: with rule `b:XX` and path `/a/b/c`,
the pattern `b` is NOT a prefix of the path, so the claim demands that no
override be applied — but the code matches with Python's substring `in`
and applies the override (to the path's parent, `/a/b` → `/a/XX`). -/
theorem save_path_counterexample :
    List.isPrefixOf "b".data "/a/b/c".data = false ∧
    resolve_save_path ["b:XX"] "/a/b/c" = some "/a/XX" := by
  refine ⟨by decide, by decide⟩

/-- C8: with complete identity data and a three-season map where the
first filed season's external add succeeds and the second's fails, the
filer stops at the failure and returns false; the external state keeps
the first season's filing (no rollback) and never sees the third season;
the scan loop then records the series as `存在缺失` (Missing), not
`已加订阅` (AddedSubscription).  Separately, with empty/zero title, year,
TMDB id or season map the filer returns false before filing anything. -/
theorem filing_abandonment (env : SubEnv) (rules : List String) (osx : Bool)
    (title year path pp va lad : String) (tmdbid : Nat) (s1 s2 s3 : Nat)
    (i1 i2 i3 : GetMissingEpisodesInfo) (filed : List FiledRequest)
    (htitle : title ≠ "") (hyear : year ≠ "") (hid : tmdbid ≠ 0)
    (hskip1 : ¬(i1.episode_no_exist = [] ∧ osx = true))
    (hskip2 : ¬(i2.episode_no_exist = [] ∧ osx = true))
    (hsub1 : env.subExists s1 = false) (hadd1 : env.addOk s1 = true)
    (hsub2 : env.subExists s2 = false) (hadd2 : env.addOk s2 = false) :
    add_subscribe_by_tv_no_exist_info env rules osx
      ⟨title, year, path, tmdbid, pp, va, lad, [(s1, i1), (s2, i2), (s3, i3)]⟩ filed =
      (false, filed ++
        [⟨title, year, tmdbid, s1, resolve_save_path rules path, i1.episode_total⟩]) ∧
    process_scan_result env rules osx NoExistAction.ADD_SUBSCRIBE true
      ⟨title, year, path, tmdbid, pp, va, lad, [(s1, i1), (s2, i2), (s3, i3)]⟩ filed =
      (HistoryStatus.NO_EXIST, filed ++
        [⟨title, year, tmdbid, s1, resolve_save_path rules path, i1.episode_total⟩]) ∧
    (∀ info : TvNoExistInfo,
      info.title = "" ∨ info.year = "" ∨ info.tmdbid = 0 ∨
        info.season_episode_no_exist_info = [] →
      add_subscribe_by_tv_no_exist_info env rules osx info filed = (false, filed)) := by
  have hc1 : checke_and_add_subscribe env rules title year tmdbid s1 path
      i1.episode_total filed = (true, filed ++
        [⟨title, year, tmdbid, s1, resolve_save_path rules path, i1.episode_total⟩]) := by
    unfold checke_and_add_subscribe
    rw [if_neg (by rw [hsub1]; exact Bool.false_ne_true), if_pos hadd1]
  have hc2 : checke_and_add_subscribe env rules title year tmdbid s2 path
      i2.episode_total (filed ++
        [⟨title, year, tmdbid, s1, resolve_save_path rules path, i1.episode_total⟩]) =
      (false, filed ++
        [⟨title, year, tmdbid, s1, resolve_save_path rules path, i1.episode_total⟩]) := by
    unfold checke_and_add_subscribe
    rw [if_neg (by rw [hsub2]; exact Bool.false_ne_true),
      if_neg (by rw [hadd2]; exact Bool.false_ne_true)]
  have hmain : add_subscribe_by_tv_no_exist_info env rules osx
      ⟨title, year, path, tmdbid, pp, va, lad, [(s1, i1), (s2, i2), (s3, i3)]⟩ filed =
      (false, filed ++
        [⟨title, year, tmdbid, s1, resolve_save_path rules path, i1.episode_total⟩]) := by
    unfold add_subscribe_by_tv_no_exist_info
    rw [if_neg (by
      rintro (h | h | h | h)
      · exact htitle h
      · exact hyear h
      · exact hid h
      · exact List.noConfusion h)]
    unfold add_subscribe_seasons
    rw [if_neg hskip1]
    simp only [hc1]
    unfold add_subscribe_seasons
    rw [if_neg hskip2]
    simp only [hc2]
  refine ⟨hmain, ?_, ?_⟩
  · unfold process_scan_result
    rw [if_pos rfl, if_neg (by exact List.noConfusion)]
    simp only [hmain]
  · intro info hbad
    unfold add_subscribe_by_tv_no_exist_info
    rw [if_pos hbad]

/-- Witness for `filing_abandonment`: seasons 1..3 each missing episode 2,
the external add succeeding only for season 1; the third disjunct
instantiated at an empty-titled result. -/
theorem filing_abandonment_witness :
    add_subscribe_by_tv_no_exist_info
      ⟨fun _ => false, fun s => s == 1⟩ [] false
      ⟨"t", "2020", "/p", 100, "pp", "8.0", "2020-01-01",
        [(1, ⟨1, [2], 5⟩), (2, ⟨2, [2], 6⟩), (3, ⟨3, [2], 7⟩)]⟩ [] =
      (false, [⟨"t", "2020", 100, 1, none, 5⟩]) ∧
    process_scan_result ⟨fun _ => false, fun s => s == 1⟩ [] false
      NoExistAction.ADD_SUBSCRIBE true
      ⟨"t", "2020", "/p", 100, "pp", "8.0", "2020-01-01",
        [(1, ⟨1, [2], 5⟩), (2, ⟨2, [2], 6⟩), (3, ⟨3, [2], 7⟩)]⟩ [] =
      (HistoryStatus.NO_EXIST, [⟨"t", "2020", 100, 1, none, 5⟩]) ∧
    add_subscribe_by_tv_no_exist_info
      ⟨fun _ => false, fun s => s == 1⟩ [] false
      ⟨"", "2020", "/p", 100, "pp", "8.0", "2020-01-01", [(1, ⟨1, [2], 5⟩)]⟩ [] =
      (false, []) := by
  have h := filing_abandonment ⟨fun _ => false, fun s => s == 1⟩ [] false
    "t" "2020" "/p" "pp" "8.0" "2020-01-01" 100 1 2 3
    ⟨1, [2], 5⟩ ⟨2, [2], 6⟩ ⟨3, [2], 7⟩ []
    (by decide) (by decide) (by decide) (by simp) (by simp)
    rfl rfl rfl rfl
  exact ⟨h.1, h.2.1, h.2.2 _ (Or.inl rfl)⟩

/-- C10 (implicit behaviour): a season whose subscription already exists
is treated as a successful filing without any external add call (the
state of filed requests is unchanged), so a complete result all of whose
seasons are already subscribed makes the overall filer return true and
the scan loop record `已加订阅` (AddedSubscription) although nothing new
was filed. -/
theorem already_subscribed_success (env : SubEnv) (rules : List String)
    (osx : Bool) (title year path pp va lad : String) (tmdbid : Nat)
    (seasonMap : List (Nat × GetMissingEpisodesInfo)) (filed : List FiledRequest)
    (htitle : title ≠ "") (hyear : year ≠ "") (hid : tmdbid ≠ 0)
    (hmap : seasonMap ≠ [])
    (hall : ∀ p ∈ seasonMap, env.subExists p.1 = true) :
    (∀ (season te : Nat) (f2 : List FiledRequest), env.subExists season = true →
      checke_and_add_subscribe env rules title year tmdbid season path te f2 =
        (true, f2)) ∧
    add_subscribe_by_tv_no_exist_info env rules osx
      ⟨title, year, path, tmdbid, pp, va, lad, seasonMap⟩ filed = (true, filed) ∧
    process_scan_result env rules osx NoExistAction.ADD_SUBSCRIBE true
      ⟨title, year, path, tmdbid, pp, va, lad, seasonMap⟩ filed =
      (HistoryStatus.ADDED_RSS, filed) := by
  have hcheck : ∀ (season te : Nat) (f2 : List FiledRequest),
      env.subExists season = true →
      checke_and_add_subscribe env rules title year tmdbid season path te f2 =
        (true, f2) := by
    intro season te f2 hEx
    unfold checke_and_add_subscribe
    rw [if_pos hEx]
  have hloop : ∀ (m : List (Nat × GetMissingEpisodesInfo)),
      (∀ p ∈ m, env.subExists p.1 = true) →
      ∀ f, add_subscribe_seasons env rules osx title year tmdbid path m f =
        (true, f) := by
    intro m
    induction m with
    | nil => intro _ f; rfl
    | cons p rest ih =>
      obtain ⟨σ, si⟩ := p
      intro hall2 f
      unfold add_subscribe_seasons
      split_ifs with hskip
      · exact ih (fun q hq => hall2 q (List.mem_cons_of_mem _ hq)) f
      · simp only [hcheck σ si.episode_total f
          (hall2 (σ, si) (List.mem_cons_self _ _))]
        exact ih (fun q hq => hall2 q (List.mem_cons_of_mem _ hq)) f
  have hmain : add_subscribe_by_tv_no_exist_info env rules osx
      ⟨title, year, path, tmdbid, pp, va, lad, seasonMap⟩ filed = (true, filed) := by
    unfold add_subscribe_by_tv_no_exist_info
    rw [if_neg (by
      rintro (h | h | h | h)
      · exact htitle h
      · exact hyear h
      · exact hid h
      · exact hmap h)]
    exact hloop seasonMap hall filed
  refine ⟨hcheck, hmain, ?_⟩
  unfold process_scan_result
  rw [if_pos rfl, if_neg hmap]
  simp only [hmain]

/-- Witness for `already_subscribed_success`: one whole-season-missing
entry, subscription already present, and an add oracle that always fails
— success is still reported and nothing is filed. -/
theorem already_subscribed_success_witness :
    checke_and_add_subscribe ⟨fun _ => true, fun _ => false⟩ [] "t" "2020"
      100 1 "/p" 5 [] = (true, []) ∧
    add_subscribe_by_tv_no_exist_info ⟨fun _ => true, fun _ => false⟩ [] false
      ⟨"t", "2020", "/p", 100, "pp", "8.0", "2020-01-01", [(1, ⟨1, [], 5⟩)]⟩ [] =
      (true, []) ∧
    process_scan_result ⟨fun _ => true, fun _ => false⟩ [] false
      NoExistAction.ADD_SUBSCRIBE true
      ⟨"t", "2020", "/p", 100, "pp", "8.0", "2020-01-01", [(1, ⟨1, [], 5⟩)]⟩ [] =
      (HistoryStatus.ADDED_RSS, []) := by
  have h := already_subscribed_success ⟨fun _ => true, fun _ => false⟩ [] false
    "t" "2020" "/p" "pp" "8.0" "2020-01-01" 100 [(1, ⟨1, [], 5⟩)] []
    (by decide) (by decide) (by decide) (by simp)
    (fun p _ => rfl)
  exact ⟨h.1 1 5 [] rfl, h.2.1, h.2.2⟩

end GetMissingEpisodes
